import Mathlib

/-!
Verification of the secure-upload backend (src/secure_upload_backend/main.py).

The embedding below translates the authentication and file-namespace logic of
main.py into Lean. Python strings are modelled as lists of characters, the
in-memory user dictionary as an association list, time as whole seconds since
the epoch, and the uploaded-files directory as an association list from
physical filename to file size in bytes (file contents are abstracted to their
sizes, which is all the listing endpoint ever reports).
-/

namespace SecureUpload

/-- Python strings are finite sequences of characters. -/
abbrev Str := List Char

/-- A credential record as stored in `fake_users_db` (main.py:263-266):
a dictionary with keys `username` and `hashed_password`. -/
structure UserRec where
  username : Str
  hashed_password : Str
deriving DecidableEq, Repr

/-- The global `fake_users_db` dictionary (main.py:64), keyed by username. -/
abbrev UsersDb := List (Str × UserRec)

/-- Python `dict.get(k)`: the value bound to the key, or `none`. -/
def dbGet (db : UsersDb) (k : Str) : Option UserRec :=
  match db with
  | [] => none
  | (k', v) :: rest => if k' = k then some v else dbGet rest k

/-- Python `db[k] = v`: bind `k` to `v`, overwriting an existing binding. -/
def dbInsert (db : UsersDb) (k : Str) (v : UserRec) : UsersDb :=
  match db with
  | [] => [(k, v)]
  | (k', v') :: rest => if k' = k then (k, v) :: rest else (k', v') :: dbInsert rest k v

/-- Modelled contract of `pwd_context.hash` (passlib pbkdf2_sha256, main.py:114-130):
the library code is outside src/, so the one-way salted hash is idealised as a
deterministic, collision-free tagging of the plaintext. What the development
relies on is exactly the hashing contract: `verify_password p (hash p)` holds,
and verification against the hash of a different password fails. -/
def get_password_hash (password : Str) : Str :=
  "pbkdf2_sha256$".toList ++ password

/-- `verify_password` (main.py:95-112): checks a plaintext against a stored hash. -/
def verify_password (plain_password hashed_password : Str) : Bool :=
  get_password_hash plain_password == hashed_password

/-- The decoded JWT claims produced by `create_access_token`: a `sub` claim
(absent when the payload dictionary lacks the key) and an `exp` claim in
seconds since the epoch. -/
structure JwtPayload where
  sub : Option Str
  exp : Nat
deriving DecidableEq, Repr

/-- A signed JWT as produced by `jose.jwt.encode(payload, key, HS256)`. The
HMAC signature is modelled by recording the signing key; verification
compares the recorded key with the verifier's key. -/
structure Jwt where
  payload : JwtPayload
  signKey : Str
deriving DecidableEq, Repr

/-- `SECRET_KEY` (main.py:23): a process-wide signing secret, fixed at startup. -/
def SECRET_KEY : Str := "process-secret-key".toList

/-- `ACCESS_TOKEN_EXPIRE_MINUTES = 30` (main.py:29). -/
def ACCESS_TOKEN_EXPIRE_MINUTES : Nat := 30

/-- Failure modes of `jose.jwt.decode`; the caller in main.py collapses all of
them (`except JWTError`) into one generic 401 response. -/
inductive JwtFailure
  | expiredSignature
  | invalidToken
deriving DecidableEq, Repr

/-- Modelled from the spec: `jose.jwt.decode(token, key, algorithms)` is
library code not under src/. Per the spec, a token is valid only if its
signature verifies against the signing key and `now < expires_at`; when
`now >= expires_at` verification fails as `Expired` (spec sections 2 and 4.2). -/
def jwt_decode (token : Jwt) (key : Str) (now : Nat) : Except JwtFailure JwtPayload :=
  if token.signKey ≠ key then .error .invalidToken
  else if token.payload.exp ≤ now then .error .expiredSignature
  else .ok token.payload

/-- `create_access_token(data, expires_delta)` (main.py:132-164). At its only
call site `data` is the dictionary with a single `sub` key, so the payload
dictionary is modelled by the value of that key; `expires_delta` is a duration
in seconds. The absolute expiry is `now + expires_delta` when a delta is
supplied, otherwise `now` plus 30 minutes. -/
def create_access_token (sub : Option Str) (expires_delta : Option Nat) (now : Nat) : Jwt :=
  let expire : Nat :=
    match expires_delta with
    | some d => now + d
    | none => now + ACCESS_TOKEN_EXPIRE_MINUTES * 60
  ⟨⟨sub, expire⟩, SECRET_KEY⟩

/-- An HTTPException as raised by main.py: status code, detail message, and the
optional WWW-Authenticate challenge header. -/
structure HTTPError where
  status_code : Nat
  detail : Str
  wwwAuthenticate : Option Str
deriving DecidableEq, Repr

/-- The `credentials_exception` value (main.py:189-193). -/
def credentials_exception : HTTPError :=
  ⟨401, "Could not validate credentials".toList, some "Bearer".toList⟩

/-- The HTTPException raised by `login` on bad credentials (main.py:297-301). -/
def incorrect_credentials : HTTPError :=
  ⟨401, "Incorrect username or password".toList, some "Bearer".toList⟩

/-- The HTTPException raised by `register` on a duplicate username (main.py:257). -/
def username_taken : HTTPError :=
  ⟨400, "Username already registered".toList, none⟩

/-- `get_current_user(token)` (main.py:166-218): decode the bearer token with
`SECRET_KEY`; reject on any `JWTError`; reject when the payload lacks a `sub`
claim; then re-resolve the subject in `fake_users_db` and reject unknown
subjects. All rejections raise the same `credentials_exception`. -/
def get_current_user (db : UsersDb) (token : Jwt) (now : Nat) : Except HTTPError UserRec :=
  match jwt_decode token SECRET_KEY now with
  | .error _ => .error credentials_exception
  | .ok payload =>
    match payload.sub with
    | none => .error credentials_exception
    | some username =>
      match dbGet db username with
      | none => .error credentials_exception
      | some user => .ok user

/-- `register(user)` (main.py:234-269): reject with a 400 when the username is
already a key of `fake_users_db`; otherwise hash the password, store the new
record, and return the success message. The resulting store is returned next
to the response so state changes are explicit. -/
def register (db : UsersDb) (username password : Str) : Except HTTPError Str × UsersDb :=
  if (dbGet db username).isSome then
    (.error username_taken, db)
  else
    let hashed_password := get_password_hash password
    (.ok "User registered successfully".toList,
     dbInsert db username ⟨username, hashed_password⟩)

/-- The login response body (main.py:81-91, 307). -/
structure TokenResponse where
  access_token : Jwt
  token_type : Str
deriving DecidableEq, Repr

/-- `login(form_data)` (main.py:271-307): look up the user; if the user is
absent or the password fails verification, raise one undifferentiated 401;
otherwise issue a token for the stored username with the default TTL. -/
def login (db : UsersDb) (form_username form_password : Str) (now : Nat) :
    Except HTTPError TokenResponse :=
  match dbGet db form_username with
  | none => .error incorrect_credentials
  | some user =>
    if verify_password form_password user.hashed_password then
      .ok ⟨create_access_token (some user.username) none now, "bearer".toList⟩
    else
      .error incorrect_credentials

/-- The uploaded_files directory: physical filename paired with the size in
bytes of the stored content. -/
abbrev FileStore := List (Str × Nat)

/-- Writing the uploaded bytes to `file_location` with `open(..., mode wb+)`
(main.py:334-336): creates the file or truncates and overwrites an existing
one at the same physical name. -/
def fsWrite (fs : FileStore) (key : Str) (size : Nat) : FileStore :=
  match fs with
  | [] => [(key, size)]
  | (k, s) :: rest => if k = key then (key, size) :: rest else (k, s) :: fsWrite rest key size

/-- The physical-key derivation inlined at main.py:331: the stored filename is
the username, an underscore, then the client-supplied filename. -/
def derive_key (owner logical_name : Str) : Str :=
  owner ++ '_' :: logical_name

/-- The response body of the upload endpoint (main.py:339). -/
structure UploadResponse where
  info : Str
  user : Str
deriving DecidableEq, Repr

/-- `upload_file(file, current_user)` (main.py:309-339): derive the physical
name by prefixing the username, write the content unconditionally, and return
the confirmation. The handler has no failure path of its own beyond the
authentication dependency; no filename validation is performed. -/
def upload_file (fs : FileStore) (current_user : UserRec) (filename : Str) (size : Nat) :
    FileStore × UploadResponse :=
  let file_location := derive_key current_user.username filename
  (fsWrite fs file_location size,
   ⟨"File \x27".toList ++ filename ++ "\x27 saved.".toList, current_user.username⟩)

/-- `list_files(current_user)` (main.py:341-386): keep the directory entries
whose name starts with the username followed by an underscore, strip that
prefix, and report the remaining name with the file size. -/
def list_files (fs : FileStore) (current_user : UserRec) : List (Str × Nat) :=
  let username := current_user.username
  (fs.filter (fun f => (username ++ ['_']).isPrefixOf f.1)).map
    (fun f => (f.1.drop (username.length + 1), f.2))

/-- An upload request: the authenticated uploader, the client-supplied
filename, and the content size. -/
structure UploadEvent where
  user : UserRec
  filename : Str
  size : Nat
deriving DecidableEq, Repr

/-- Replay a sequence of upload requests against a directory state. -/
def runUploads (fs : FileStore) (evs : List UploadEvent) : FileStore :=
  match evs with
  | [] => fs
  | e :: rest => runUploads (upload_file fs e.user e.filename e.size).1 rest

/-!
Helper lemmas shared by the claim theorems.
-/

/-- When neither word contains an underscore, gluing each to a tail with an
underscore separator is injective: the separator position is determined. -/
theorem append_underscore_inj {u v r1 r2 : Str}
    (hu : '_' ∉ u) (hv : '_' ∉ v)
    (h : u ++ '_' :: r1 = v ++ '_' :: r2) : u = v ∧ r1 = r2 := by
  induction u generalizing v with
  | nil =>
    cases v with
    | nil => simpa using h
    | cons d v' =>
      simp only [List.nil_append, List.cons_append, List.cons.injEq] at h
      simp only [List.mem_cons, not_or] at hv
      exact absurd h.1 hv.1
  | cons c u' ih =>
    cases v with
    | nil =>
      simp only [List.cons_append, List.nil_append, List.cons.injEq] at h
      simp only [List.mem_cons, not_or] at hu
      exact absurd h.1.symm hu.1
    | cons d v' =>
      simp only [List.cons_append, List.cons.injEq] at h
      simp only [List.mem_cons, not_or] at hu hv
      obtain ⟨rfl, h2⟩ := h
      obtain ⟨he, hr⟩ := ih hu.2 hv.2 h2
      exact ⟨by rw [he], hr⟩

/-- Dropping the owner prefix and the separator from a derived key recovers
the logical name. -/
theorem drop_derive_key (u n : Str) :
    (derive_key u n).drop (u.length + 1) = n := by
  simp [derive_key]

/-- Looking up a key just inserted into the user store finds the new record. -/
theorem dbGet_dbInsert_self (db : UsersDb) (k : Str) (v : UserRec) :
    dbGet (dbInsert db k v) k = some v := by
  induction db with
  | nil => simp [dbInsert, dbGet]
  | cons p rest ih =>
    obtain ⟨k', v'⟩ := p
    by_cases h : k' = k
    · simp [dbInsert, dbGet, h]
    · simp [dbInsert, dbGet, h, ih]

/-- Every entry of the store after a write was already present or is the
record just written. -/
theorem mem_fsWrite {fs : FileStore} {key : Str} {size : Nat} {p : Str × Nat}
    (h : p ∈ fsWrite fs key size) : p ∈ fs ∨ p = (key, size) := by
  induction fs with
  | nil => simpa [fsWrite] using h
  | cons q rest ih =>
    obtain ⟨k, s⟩ := q
    by_cases hk : k = key
    · subst hk
      simp only [fsWrite, if_true, eq_self_iff_true, ite_true, List.mem_cons] at h
      rcases h with h | h
      · exact Or.inr h
      · exact Or.inl (List.mem_cons_of_mem _ h)
    · simp only [fsWrite, if_neg hk, List.mem_cons] at h
      rcases h with h | h
      · exact Or.inl (by simp [h])
      · rcases ih h with h' | h'
        · exact Or.inl (List.mem_cons_of_mem _ h')
        · exact Or.inr h'

/-- Every entry of the directory after replaying uploads was present initially
or records the derived key and size of one of the replayed uploads. -/
theorem mem_runUploads {evs : List UploadEvent} {fs : FileStore} {p : Str × Nat}
    (h : p ∈ runUploads fs evs) :
    p ∈ fs ∨ ∃ e ∈ evs, p = (derive_key e.user.username e.filename, e.size) := by
  induction evs generalizing fs with
  | nil => exact Or.inl (by simpa [runUploads] using h)
  | cons e rest ih =>
    rw [runUploads] at h
    rcases ih h with h' | h'
    · rcases mem_fsWrite (by simpa [upload_file] using h') with h'' | h''
      · exact Or.inl h''
      · exact Or.inr ⟨e, List.mem_cons_self _ _, h''⟩
    · obtain ⟨e', he', hp⟩ := h'
      exact Or.inr ⟨e', List.mem_cons_of_mem _ he', hp⟩

/-!
Claim theorems.
-/

/-- C1, counterexample: the claim fails as stated. The identity a_b uploads
y, and list for the distinct identity a reports that file (as b_y, with its
size): a logical name and size of a file uploaded by a different identity
appears in the listing, because the underscore-prefix filter cannot tell the
key a_b_y apart from a file of user a. -/
theorem C1_cross_identity_leak :
    ("b_y".toList, 5) ∈
      list_files
        (runUploads [] [⟨⟨"a_b".toList, "h".toList⟩, "y".toList, 5⟩])
        ⟨"a".toList, "g".toList⟩ ∧
    "a_b".toList ≠ "a".toList := by decide

/-- C1, amended: provided no username contains an underscore, the listing for
an identity contains only records of files uploaded by that identity — every
reported name and size comes from one of that identity's own uploads. -/
theorem C1_list_isolated_without_underscores
    (evs : List UploadEvent) (u : UserRec)
    (hu : '_' ∉ u.username)
    (hevs : ∀ e ∈ evs, '_' ∉ e.user.username) :
    ∀ entry ∈ list_files (runUploads [] evs) u,
      ∃ e ∈ evs, e.user.username = u.username ∧ e.filename = entry.1 ∧ e.size = entry.2 := by
  intro entry hentry
  simp only [list_files, List.mem_map, List.mem_filter] at hentry
  obtain ⟨⟨k, s⟩, ⟨hmem, hpref⟩, hEq⟩ := hentry
  rcases mem_runUploads hmem with h0 | ⟨e, he, hp⟩
  · simp at h0
  · have hk : k = derive_key e.user.username e.filename := congrArg Prod.fst hp
    have hs : s = e.size := congrArg Prod.snd hp
    rw [List.isPrefixOf_iff_prefix] at hpref
    obtain ⟨t, ht⟩ := hpref
    rw [hk, derive_key] at ht
    have ht' : u.username ++ '_' :: t = e.user.username ++ '_' :: e.filename := by
      simpa [List.append_assoc] using ht
    obtain ⟨howner, htail⟩ := append_underscore_inj hu (hevs e he) ht'
    refine ⟨e, he, howner.symm, ?_, ?_⟩
    · have : entry.1 = k.drop (u.username.length + 1) := by rw [← hEq]
      rw [this, hk, ← howner, drop_derive_key]
    · have : entry.2 = s := by rw [← hEq]
      rw [this, hs]

/-- C1, witness for the amended theorem at a concrete input: user a uploads
x of size 3; the only listing entry is traced back to that upload. -/
theorem C1_isolation_witness :
    ∃ e ∈ [(⟨⟨"a".toList, "h".toList⟩, "x".toList, 3⟩ : UploadEvent)],
      e.user.username = "a".toList ∧ e.filename = "x".toList ∧ e.size = 3 :=
  C1_list_isolated_without_underscores
    [⟨⟨"a".toList, "h".toList⟩, "x".toList, 3⟩] ⟨"a".toList, "h".toList⟩
    (by decide) (by decide) ("x".toList, 3) (by decide)

/-- C2, counterexample: the derived physical key is not injective across
owners — owner a with logical name b_x collides with owner a_b with logical
name x, although the owners differ. -/
theorem C2_collision_across_owners :
    derive_key "a".toList "b_x".toList = derive_key "a_b".toList "x".toList ∧
    "a".toList ≠ "a_b".toList := by decide

/-- C2, amended: provided neither owner contains an underscore, distinct
owners derive distinct physical keys whatever the logical names are. -/
theorem C2_injective_without_underscores
    (u v n m : Str) (hu : '_' ∉ u) (hv : '_' ∉ v) (huv : u ≠ v) :
    derive_key u n ≠ derive_key v m := by
  intro h
  exact huv (append_underscore_inj hu hv (by simpa [derive_key] using h)).1

/-- C2, witness for the amended theorem at concrete owners a and b. -/
theorem C2_injective_witness :
    derive_key "a".toList "x".toList ≠ derive_key "b".toList "x".toList :=
  C2_injective_without_underscores "a".toList "b".toList "x".toList "x".toList
    (by decide) (by decide) (by decide)

/-- Decoding with the issuing key before the expiry instant succeeds. -/
theorem jwt_decode_ok (token : Jwt) (now : Nat)
    (hkey : token.signKey = SECRET_KEY) (h : now < token.payload.exp) :
    jwt_decode token SECRET_KEY now = .ok token.payload := by
  have h' : ¬ token.payload.exp ≤ now := Nat.not_le.mpr h
  simp [jwt_decode, hkey, h']

/-- Decoding with the issuing key at or after the expiry instant fails as
expired. -/
theorem jwt_decode_expired (token : Jwt) (now : Nat)
    (hkey : token.signKey = SECRET_KEY) (h : token.payload.exp ≤ now) :
    jwt_decode token SECRET_KEY now = .error .expiredSignature := by
  simp [jwt_decode, hkey, h]

/-- C3: the upload handler performs no logical-name validation at all. A
traversal-shaped filename is accepted: the write happens (under the derived
key that embeds the dot-dot segments) and the handler returns its success
response; no InvalidName failure exists anywhere in the code. -/
theorem C3_traversal_name_written :
    upload_file [] ⟨"u".toList, "h".toList⟩ "../../etc/x".toList 4 =
      ([("u_../../etc/x".toList, 4)],
       ⟨"File \x27../../etc/x\x27 saved.".toList, "u".toList⟩) := by decide

/-- C4: register performs no emptiness validation. With both the username and
the password empty it succeeds, returns the success message, and inserts a
record for the empty username (hashing the empty password). -/
theorem C4_empty_credentials_accepted :
    register [] [] [] =
      (.ok "User registered successfully".toList,
       [([], ⟨[], get_password_hash []⟩)]) := rfl

/-- C5: for any store not yet containing the username, register followed by
login with the same credentials succeeds, and verifying the returned bearer
token (at the issuing instant) resolves to a user record carrying exactly
that username. -/
theorem C5_register_login_roundtrip
    (db : UsersDb) (username password : Str) (now : Nat)
    (hfree : dbGet db username = none) :
    ∃ resp : TokenResponse,
      login (register db username password).2 username password now = .ok resp ∧
      ∃ user : UserRec,
        get_current_user (register db username password).2 resp.access_token now = .ok user ∧
        user.username = username := by
  have hdb : (register db username password).2 =
      dbInsert db username ⟨username, get_password_hash password⟩ := by
    simp [register, hfree]
  have hget := dbGet_dbInsert_self db username ⟨username, get_password_hash password⟩
  refine ⟨⟨create_access_token (some username) none now, "bearer".toList⟩, ?_, ?_⟩
  · rw [hdb]
    simp [login, hget, verify_password]
  · refine ⟨⟨username, get_password_hash password⟩, ?_, rfl⟩
    rw [hdb]
    have hnl : ¬ now + ACCESS_TOKEN_EXPIRE_MINUTES * 60 ≤ now := by
      unfold ACCESS_TOKEN_EXPIRE_MINUTES
      omega
    simp [get_current_user, jwt_decode, create_access_token, hget, hnl]

/-- C5, witness: the roundtrip at the concrete credentials alice and pw on an
empty store. -/
theorem C5_roundtrip_witness :
    ∃ resp : TokenResponse,
      login (register [] "alice".toList "pw".toList).2 "alice".toList "pw".toList 0 = .ok resp ∧
      ∃ user : UserRec,
        get_current_user (register [] "alice".toList "pw".toList).2 resp.access_token 0 = .ok user ∧
        user.username = "alice".toList :=
  C5_register_login_roundtrip [] "alice".toList "pw".toList 0 rfl

/-- C6: a login attempt for an unknown username and a login attempt for an
existing username with a password failing verification return one and the
same error value — same 401 status, same detail message, same
WWW-Authenticate Bearer challenge — at any pair of times. -/
theorem C6_login_errors_identical
    (db : UsersDb) (u1 p1 u2 p2 : Str) (now1 now2 : Nat) (r : UserRec)
    (h1 : dbGet db u1 = none)
    (h2 : dbGet db u2 = some r)
    (h3 : verify_password p2 r.hashed_password = false) :
    login db u1 p1 now1 = .error incorrect_credentials ∧
    login db u2 p2 now2 = .error incorrect_credentials ∧
    incorrect_credentials =
      ⟨401, "Incorrect username or password".toList, some "Bearer".toList⟩ := by
  refine ⟨?_, ?_, rfl⟩
  · simp [login, h1]
  · simp [login, h2, h3]

/-- C6, witness: unknown user alice versus existing user bob with a wrong
password, against a concrete one-user store. -/
theorem C6_identical_witness :
    login [("bob".toList, ⟨"bob".toList, get_password_hash "pw".toList⟩)]
        "alice".toList "pw".toList 1 = .error incorrect_credentials ∧
    login [("bob".toList, ⟨"bob".toList, get_password_hash "pw".toList⟩)]
        "bob".toList "wrong".toList 2 = .error incorrect_credentials ∧
    incorrect_credentials =
      ⟨401, "Incorrect username or password".toList, some "Bearer".toList⟩ :=
  C6_login_errors_identical
    [("bob".toList, ⟨"bob".toList, get_password_hash "pw".toList⟩)]
    "alice".toList "pw".toList "bob".toList "wrong".toList 1 2
    ⟨"bob".toList, get_password_hash "pw".toList⟩ rfl rfl (by decide)

/-- C7: a token issued at time t with time-to-live T — the supplied delta, or
30 minutes when the caller does not override — carries absolute expiry t + T;
decoding it with the server key succeeds strictly before that instant and
fails as expired at that instant and at every later one. -/
theorem C7_token_expiry_boundary
    (sub : Str) (issue : Nat) (ttl : Option Nat) :
    (create_access_token (some sub) ttl issue).payload.exp =
        issue + (match ttl with | some d => d | none => ACCESS_TOKEN_EXPIRE_MINUTES * 60) ∧
    (∀ t, t < (create_access_token (some sub) ttl issue).payload.exp →
        jwt_decode (create_access_token (some sub) ttl issue) SECRET_KEY t =
          .ok (create_access_token (some sub) ttl issue).payload) ∧
    (∀ t, (create_access_token (some sub) ttl issue).payload.exp ≤ t →
        jwt_decode (create_access_token (some sub) ttl issue) SECRET_KEY t =
          .error .expiredSignature) := by
  refine ⟨by cases ttl <;> rfl, ?_, ?_⟩
  · intro t ht
    exact jwt_decode_ok _ t rfl ht
  · intro t ht
    exact jwt_decode_expired _ t rfl ht

/-- C7, witness: a token for alice issued at 100 with a 60-second ttl expires
at 160, decodes at 159, and is rejected as expired at 160. -/
theorem C7_boundary_witness :
    (create_access_token (some "alice".toList) (some 60) 100).payload.exp = 160 ∧
    jwt_decode (create_access_token (some "alice".toList) (some 60) 100) SECRET_KEY 159 =
      .ok (create_access_token (some "alice".toList) (some 60) 100).payload ∧
    jwt_decode (create_access_token (some "alice".toList) (some 60) 100) SECRET_KEY 160 =
      .error .expiredSignature := by
  obtain ⟨h1, h2, h3⟩ := C7_token_expiry_boundary "alice".toList 100 (some 60)
  exact ⟨h1, h2 159 (by decide), h3 160 (by decide)⟩

/-- C8: registering a username already present in the store fails with the
400 UsernameTaken error whatever the password is, and registration returns
the success message exactly when the username is absent. -/
theorem C8_register_requires_fresh_username
    (db : UsersDb) (username password : Str) :
    ((register db username password).1 = .ok "User registered successfully".toList ↔
      dbGet db username = none) ∧
    ((dbGet db username).isSome → register db username password = (.error username_taken, db)) := by
  refine ⟨⟨?_, ?_⟩, ?_⟩
  · intro h
    by_cases hs : (dbGet db username).isSome
    · simp [register, hs] at h
    · simpa [Option.not_isSome_iff_eq_none] using hs
  · intro h
    simp [register, h]
  · intro h
    simp [register, h]

/-- C8, witness: registering bob twice — the second attempt, with a different
password, fails with the UsernameTaken error and the first on an empty store
succeeds. -/
theorem C8_fresh_username_witness :
    register [("bob".toList, ⟨"bob".toList, "h".toList⟩)] "bob".toList "pw".toList =
      (.error username_taken, [("bob".toList, ⟨"bob".toList, "h".toList⟩)]) :=
  (C8_register_requires_fresh_username
    [("bob".toList, ⟨"bob".toList, "h".toList⟩)] "bob".toList "pw".toList).2 (by decide)

/-- C9: after a signature-valid, unexpired token is decoded, its subject is
re-resolved against the user store: when the subject is absent authentication
fails with the 401 credentials error, and when present the returned identity
is exactly the stored credential record. -/
theorem C9_subject_reresolved
    (db : UsersDb) (token : Jwt) (now : Nat) (s : Str)
    (hkey : token.signKey = SECRET_KEY)
    (hexp : now < token.payload.exp)
    (hsub : token.payload.sub = some s) :
    (dbGet db s = none → get_current_user db token now = .error credentials_exception) ∧
    (∀ r, dbGet db s = some r → get_current_user db token now = .ok r) := by
  have hdec : jwt_decode token SECRET_KEY now = .ok token.payload :=
    jwt_decode_ok token now hkey hexp
  constructor
  · intro h
    simp [get_current_user, hdec, hsub, h]
  · intro r h
    simp [get_current_user, hdec, hsub, h]

/-- C9, witness: one and the same valid token for bob is rejected against the
empty store and yields the stored record once bob exists. -/
theorem C9_reresolve_witness :
    get_current_user [] ⟨⟨some "bob".toList, 100⟩, SECRET_KEY⟩ 0 =
      .error credentials_exception ∧
    get_current_user [("bob".toList, ⟨"bob".toList, "h".toList⟩)]
        ⟨⟨some "bob".toList, 100⟩, SECRET_KEY⟩ 0 =
      .ok ⟨"bob".toList, "h".toList⟩ :=
  ⟨(C9_subject_reresolved [] ⟨⟨some "bob".toList, 100⟩, SECRET_KEY⟩ 0 "bob".toList
      rfl (by decide) rfl).1 rfl,
   (C9_subject_reresolved [("bob".toList, ⟨"bob".toList, "h".toList⟩)]
      ⟨⟨some "bob".toList, 100⟩, SECRET_KEY⟩ 0 "bob".toList
      rfl (by decide) rfl).2 ⟨"bob".toList, "h".toList⟩ rfl⟩

/-- C10: when registration fails because the username is taken, the store is
returned unchanged — in particular the existing record, its password hash
included, is still found under that username and nothing was inserted. -/
theorem C10_register_error_atomicity
    (db : UsersDb) (username password : Str) (r : UserRec)
    (h : dbGet db username = some r) :
    register db username password = (.error username_taken, db) ∧
    dbGet (register db username password).2 username = some r := by
  have hs : (dbGet db username).isSome := by simp [h]
  constructor
  · simp [register, hs]
  · simp [register, hs, h]

/-- C10, witness: a failing re-registration of bob leaves the one-record
store intact with the original hash. -/
theorem C10_atomicity_witness :
    register [("bob".toList, ⟨"bob".toList, "h1".toList⟩)] "bob".toList "other".toList =
      (.error username_taken, [("bob".toList, ⟨"bob".toList, "h1".toList⟩)]) ∧
    dbGet (register [("bob".toList, ⟨"bob".toList, "h1".toList⟩)]
        "bob".toList "other".toList).2 "bob".toList =
      some ⟨"bob".toList, "h1".toList⟩ :=
  C10_register_error_atomicity [("bob".toList, ⟨"bob".toList, "h1".toList⟩)]
    "bob".toList "other".toList ⟨"bob".toList, "h1".toList⟩ rfl

end SecureUpload
